import Mathlib

/-!
Verification development for the RSI trading bot's trade-execution and
ledger-consistency engine (trader.py, db.py, security.py, schemas.py).

The Python code is shallowly embedded as pure Lean functions over an explicit
ledger state `DBState`.  Monetary amounts (Python floats) are modelled as
rationals; the SQLite tables become association lists; each database helper of
db.py becomes a state-passing function; `_execute_trade` becomes a pure
function from (config, sampled market values, action, request, state) to
(result, state).  Randomness (RSI sample, price sample, generated transaction
ids) is supplied through an explicit `Oracle` argument, matching the code's
use of `calculate_mock_rsi`, `get_mock_price` and `generate_transaction_id`.
The SHA-256 digest of `hash_request_payload` is modelled by its normalized
pre-image string (the digest is a deterministic injective-modulo-collisions
function of that string; no claim here depends on the digest itself).
-/

namespace RsiBot

/-- Python str.upper on ASCII strings (extensionally String.toUpper, stated
over the character list so that it evaluates in the kernel). -/
def strUpper (s : String) : String := ⟨s.data.map Char.toUpper⟩

/-- Python str.endswith (extensionally String.endsWith). -/
def strEndsWith (s suffixStr : String) : Bool :=
  suffixStr.data.isSuffixOf s.data

/-- Python s[:-n] for 0 < n ≤ len s (extensionally String.dropRight). -/
def strDropRight (s : String) (n : ℕ) : String :=
  ⟨s.data.take (s.data.length - n)⟩

/-- Embedding of config.Config: the configuration values consumed by the
trade-execution engine. -/
structure Config where
  TRADING_PAIR : String
  RSI_OVERSOLD : ℚ
  RSI_OVERBOUGHT : ℚ
  DEFAULT_BASE_BALANCE : ℚ
  DEFAULT_QUOTE_BALANCE : ℚ
  DEFAULT_ORDER_QUANTITY : ℚ
deriving DecidableEq

/-- Embedding of schemas.TradeRequest after pydantic validation: `request_id`
is always present (the validator generates one when absent). -/
structure TradeRequest where
  pair : Option String
  quantity : Option ℚ
  request_id : String
  sequence_number : Option ℤ
  client_ref : Option String
  force : Bool
deriving DecidableEq

/-- Embedding of schemas.TradeResponse. -/
structure TradeResponse where
  pair : String
  action : String
  rsi : ℚ
  price : Option ℚ
  quantity : Option ℚ
  status : String
  trade_id : Option ℕ
  transaction_id : Option String
  sequence_number : Option ℤ
  request_id : String
  request_hash : String
  balances : List (String × ℚ)
  message : Option String
deriving DecidableEq

/-- One row of the `trades` table of db.py, with the JSON `metadata` column
split into the three keys `_execute_trade` writes (`balances`, `request_id`,
`client_ref`); an arbitrary row may lack any of them, hence the `Option`s. -/
structure TradeRecord where
  id : ℕ
  transaction_id : String
  sequence_number : ℤ
  request_hash : String
  pair : String
  action : String
  rsi : ℚ
  price : Option ℚ
  quantity : Option ℚ
  status : String
  metaBalances : Option (List (String × ℚ))
  metaRequestId : Option String
  metaClientRef : Option String
deriving DecidableEq

/-- The persisted state owned by db.py: the `trades` table (with its SQLite
AUTOINCREMENT counter `nextId`), the `balances` table (asset → balance, an
association list standing for the keyed rows), and the `sequence_tracker`
table ((pair, action) → last_sequence). -/
structure DBState where
  trades : List TradeRecord
  nextId : ℕ
  balances : List (String × ℚ)
  seqTracker : List ((String × String) × ℤ)
deriving DecidableEq

/-- The empty database right after `ensure_initialized` creates the schema. -/
def initialState : DBState := ⟨[], 1, [], []⟩

/-- The non-deterministic inputs of one `_execute_trade` call: the sampled
RSI, the sampled price, and the two candidate transaction ids that
`generate_transaction_id` would return on its first and second invocation. -/
structure Oracle where
  rsi : ℚ
  price : ℚ
  txid1 : String
  txid2 : String
deriving DecidableEq

deriving instance DecidableEq for Except

/-- Association-list lookup for the `balances` table (SELECT by primary key). -/
def lookupBal (bs : List (String × ℚ)) (asset : String) : Option ℚ :=
  (bs.find? (fun p => p.1 == asset)).map Prod.snd

/-- Association-list upsert for the `balances` table (INSERT .. ON CONFLICT
DO UPDATE): updates the existing row in place, else appends a new row. -/
def upsertBal (bs : List (String × ℚ)) (asset : String) (v : ℚ) :
    List (String × ℚ) :=
  match bs with
  | [] => [(asset, v)]
  | (k, w) :: rest =>
      if k == asset then (k, v) :: rest else (k, w) :: upsertBal rest asset v

/-- Lookup in the `sequence_tracker` table by its (pair, action) primary key. -/
def lookupSeq (tr : List ((String × String) × ℤ)) (pair action : String) :
    Option ℤ :=
  (tr.find? (fun p => p.1.1 == pair && p.1.2 == action)).map Prod.snd

/-- Upsert into the `sequence_tracker` table (INSERT .. ON CONFLICT DO
UPDATE SET last_sequence). -/
def upsertSeq (tr : List ((String × String) × ℤ)) (pair action : String)
    (v : ℤ) : List ((String × String) × ℤ) :=
  match tr with
  | [] => [((pair, action), v)]
  | (k, w) :: rest =>
      if k.1 == pair && k.2 == action then (k, v) :: rest
      else (k, w) :: upsertSeq rest pair action v

/-- Embedding of db.get_balance: balance of an asset, 0 when no row exists. -/
def get_balance (st : DBState) (asset : String) : ℚ :=
  (lookupBal st.balances asset).getD 0

/-- Embedding of db.get_balances (and db.get_balance_snapshot, which just
calls it): the full balances table as a dictionary. -/
def get_balances (st : DBState) : List (String × ℚ) := st.balances

/-- Embedding of db.adjust_balance: unguarded read-modify-write.  Reads the
current balance (0 when the row is absent), adds `delta`, persists the sum
whatever its sign, and returns the new balance. -/
def adjust_balance (st : DBState) (asset : String) (delta : ℚ) :
    ℚ × DBState :=
  let current := get_balance st asset
  let new_balance := current + delta
  (new_balance, { st with balances := upsertBal st.balances asset new_balance })

/-- Embedding of db.ensure_initial_balance: inserts a row only when the asset
has none yet; never overwrites an existing balance. -/
def ensure_initial_balance (st : DBState) (asset : String) (amount : ℚ) :
    DBState :=
  match lookupBal st.balances asset with
  | some _ => st
  | none => { st with balances := st.balances ++ [(asset, amount)] }

/-- Embedding of db.get_last_sequence: last recorded sequence for a
(pair, action) stream, 0 when the stream has no row. -/
def get_last_sequence (st : DBState) (pair action : String) : ℤ :=
  (lookupSeq st.seqTracker pair action).getD 0

/-- Embedding of db.get_next_sequence. -/
def get_next_sequence (st : DBState) (pair action : String) : ℤ :=
  get_last_sequence st pair action + 1

/-- Embedding of the transaction_id branch of db.trade_exists. -/
def trade_exists_txid (st : DBState) (transaction_id : String) : Bool :=
  st.trades.any (fun t => t.transaction_id == transaction_id)

/-- Embedding of the request_hash branch of db.trade_exists. -/
def trade_exists_hash (st : DBState) (request_hash : String) : Bool :=
  st.trades.any (fun t => t.request_hash == request_hash)

/-- Embedding of db.fetch_trade_by_request_hash (SELECT .. LIMIT 1: the first
row, in rowid order, carrying the hash). -/
def fetch_trade_by_request_hash (st : DBState) (request_hash : String) :
    Option TradeRecord :=
  st.trades.find? (fun t => t.request_hash == request_hash)

/-- Embedding of db.record_trade.  The `trades` schema declares
`transaction_id TEXT NOT NULL UNIQUE`; inserting a colliding transaction_id
raises IntegrityError and `get_connection` rolls the whole transaction back,
which the error branch models (no state is produced).  `request_hash` has
only a plain (non-unique) index, so no check is made on it here.  On success
the row is inserted and the sequence tracker is upserted in the same
transaction; the AUTOINCREMENT row id is returned. -/
def record_trade (st : DBState) (transaction_id : String)
    (sequence_number : ℤ) (request_hash : String) (pair action : String)
    (rsi : ℚ) (price quantity : Option ℚ) (status : String)
    (metaBalances : Option (List (String × ℚ)))
    (metaRequestId metaClientRef : Option String) :
    Except Unit (ℕ × DBState) :=
  if trade_exists_txid st transaction_id then .error ()
  else
    let t : TradeRecord :=
      { id := st.nextId, transaction_id := transaction_id,
        sequence_number := sequence_number, request_hash := request_hash,
        pair := pair, action := action, rsi := rsi, price := price,
        quantity := quantity, status := status,
        metaBalances := metaBalances, metaRequestId := metaRequestId,
        metaClientRef := metaClientRef }
    .ok (st.nextId,
      { st with
        trades := st.trades ++ [t],
        nextId := st.nextId + 1,
        seqTracker := upsertSeq st.seqTracker pair action sequence_number })

/-- Helper for security.parse_pair: walk the candidate quote currencies in
order; a suffix match with a non-empty base wins, else fall through. -/
def parsePairAux (p : String) : List String → String × String
  | [] => (p, "USDT")
  | c :: rest =>
      if strEndsWith p c && strDropRight p c.length != "" then
        (strDropRight p c.length, c)
      else parsePairAux p rest

/-- Embedding of security.parse_pair: split a pair into (base, quote) by
suffix-matching USDT, USD, USDC, EUR in that order; whole-pair-as-base with
USDT quote as fallback. -/
def parse_pair (pair : String) : String × String :=
  parsePairAux (strUpper pair) ["USDT", "USD", "USDC", "EUR"]

/-- Embedding of security.hash_request_payload on the payload _execute_trade
builds.  The keys sort as action < client_ref < pair < quantity < request_id;
the function returns the SHA-256 hex digest of the normalized string, which
is modelled here by the normalized string itself. -/
def hash_request_payload (pair action : String) (quantity : ℚ)
    (request_id client_ref : String) : String :=
  "action:" ++ action ++ "|client_ref:" ++ client_ref ++ "|pair:" ++ pair ++
    "|quantity:" ++ toString quantity ++ "|request_id:" ++ request_id

/-- Embedding of Python's round(x, 6) on the quantity (Python rounds exact
halves to even; the half-way behaviour is immaterial to every claim below). -/
def round6 (q : ℚ) : ℚ := (⌊q * 1000000 + 1 / 2⌋ : ℤ) / 1000000

/-- The errors an `_execute_trade` call can raise: the two ValueErrors of
`_validate_sequence`, and the store-level IntegrityError escaping
`record_trade`. -/
inductive ExecError where
  | staleSequence (supplied expected : ℤ)
  | sequenceGap (supplied expected : ℤ)
  | storeFailure
deriving DecidableEq

/-- Embedding of trader._validate_sequence. -/
def validate_sequence (st : DBState) (pair action : String)
    (sequence_number : Option ℤ) : Except ExecError ℤ :=
  let expected_next := get_next_sequence st pair action
  match sequence_number with
  | none => .ok expected_next
  | some s =>
      if s < expected_next then .error (.staleSequence s expected_next)
      else if s > expected_next then .error (.sequenceGap s expected_next)
      else .ok s

/-- Embedding of trader._check_rsi_conditions (the human-readable reason
strings stand in for the code's interpolated messages). -/
def check_rsi_conditions (cfg : Config) (action : String) (rsi : ℚ)
    (force : Bool) : Option String :=
  if force then none
  else if action == "BUY" && decide (cfg.RSI_OVERSOLD ≤ rsi) then
    some "RSI is not below oversold threshold."
  else if action == "SELL" && decide (rsi ≤ cfg.RSI_OVERBOUGHT) then
    some "RSI is not above overbought threshold."
  else none

/-- Embedding of trader._validate_balances (any action other than "BUY"
takes the SELL branch, as in the code's if/else). -/
def validate_balances (st : DBState) (action pair : String)
    (quantity price : ℚ) : Option String :=
  let assets := parse_pair pair
  if action == "BUY" then
    let cost := price * quantity
    if get_balance st assets.2 < cost then
      some "Insufficient quote balance."
    else none
  else
    if get_balance st assets.1 < quantity then
      some "Insufficient base balance."
    else none

/-- Embedding of trader._apply_balance_updates: two independent
`adjust_balance` calls followed by a balances snapshot. -/
def apply_balance_updates (st : DBState) (action pair : String)
    (quantity price : ℚ) : List (String × ℚ) × DBState :=
  let assets := parse_pair pair
  if action == "BUY" then
    let cost := price * quantity
    let st1 := (adjust_balance st assets.2 (-cost)).2
    let st2 := (adjust_balance st1 assets.1 quantity).2
    (get_balances st2, st2)
  else
    let proceeds := price * quantity
    let st1 := (adjust_balance st assets.1 (-quantity)).2
    let st2 := (adjust_balance st1 assets.2 proceeds).2
    (get_balances st2, st2)

/-- Embedding of trader._prepare_balances: seed both assets of the pair with
the configured defaults when absent, then return all balances. -/
def prepare_balances (cfg : Config) (st : DBState) (pair : String) :
    List (String × ℚ) × DBState :=
  let assets := parse_pair pair
  let st1 := ensure_initial_balance st assets.1 cfg.DEFAULT_BASE_BALANCE
  let st2 := ensure_initial_balance st1 assets.2 cfg.DEFAULT_QUOTE_BALANCE
  (get_balances st2, st2)

/-- The normalized pair of a request (step 1 of `_execute_trade`). -/
def normPair (cfg : Config) (req : TradeRequest) : String :=
  strUpper (req.pair.getD cfg.TRADING_PAIR)

/-- The normalized quantity of a request (step 1 of `_execute_trade`). -/
def normQty (cfg : Config) (req : TradeRequest) : ℚ :=
  round6 (req.quantity.getD cfg.DEFAULT_ORDER_QUANTITY)

/-- The state after `_prepare_balances` has seeded the pair's assets. -/
def seeded (cfg : Config) (req : TradeRequest) (st : DBState) : DBState :=
  (prepare_balances cfg st (normPair cfg req)).2

/-- The request fingerprint `_execute_trade` computes for a call. -/
def reqHash (cfg : Config) (action : String) (req : TradeRequest) : String :=
  hash_request_payload (normPair cfg req) action (normQty cfg req)
    req.request_id (req.client_ref.getD "")

/-- The duplicate-replay response of `_execute_trade`: the existing record's
data verbatim, except that `request_id` comes from the incoming request and
the balances fall back to the live post-seeding balances when the stored
metadata has no `balances` key. -/
def dupResponse (req : TradeRequest) (request_hash : String)
    (liveBalances : List (String × ℚ)) (existing : TradeRecord) :
    TradeResponse :=
  { pair := existing.pair, action := existing.action, rsi := existing.rsi,
    price := existing.price, quantity := existing.quantity,
    status := existing.status, trade_id := some existing.id,
    transaction_id := some existing.transaction_id,
    sequence_number := some existing.sequence_number,
    request_id := req.request_id, request_hash := request_hash,
    balances := existing.metaBalances.getD liveBalances,
    message := some "Duplicate request ignored." }

/-- The `rejected` response `_execute_trade` builds on an RSI-threshold or
insufficient-funds violation. -/
def rejectedResponse (pair action : String) (rsi price quantity : ℚ)
    (sequence_number : ℤ) (req : TradeRequest) (request_hash : String)
    (balances : List (String × ℚ)) (message : String) : TradeResponse :=
  { pair := pair, action := action, rsi := rsi, price := some price,
    quantity := some quantity, status := "rejected", trade_id := none,
    transaction_id := none, sequence_number := some sequence_number,
    request_id := req.request_id, request_hash := request_hash,
    balances := balances, message := some message }

/-- Steps 5–11 of `_execute_trade` (everything after the duplicate check):
sequence validation, RSI check, funds check, transaction-id generation with
one regeneration on collision, balance mutation, durable recording, response.
The returned state is what the store has committed when the call ends: the
balance mutation of `apply_balance_updates` commits in its own transactions,
so a subsequent `record_trade` failure leaves it in place. -/
def execute_core (cfg : Config) (o : Oracle) (action : String)
    (req : TradeRequest) (st1 : DBState) (pair : String) (quantity : ℚ)
    (request_hash : String) (balances : List (String × ℚ)) :
    Except ExecError TradeResponse × DBState :=
  match validate_sequence st1 pair action req.sequence_number with
  | .error e => (.error e, st1)
  | .ok sequence_number =>
    match check_rsi_conditions cfg action o.rsi req.force with
    | some violation =>
        (.ok (rejectedResponse pair action o.rsi o.price quantity
          sequence_number req request_hash balances violation), st1)
    | none =>
      match validate_balances st1 action pair quantity o.price with
      | some balance_error =>
          (.ok (rejectedResponse pair action o.rsi o.price quantity
            sequence_number req request_hash balances balance_error), st1)
      | none =>
        let transaction_id :=
          if trade_exists_txid st1 o.txid1 then o.txid2 else o.txid1
        let updated := apply_balance_updates st1 action pair quantity o.price
        match record_trade updated.2 transaction_id sequence_number
            request_hash pair action o.rsi (some o.price) (some quantity)
            "executed" (some updated.1) (some req.request_id)
            req.client_ref with
        | .error _ => (.error .storeFailure, updated.2)
        | .ok idSt =>
            (.ok { pair := pair, action := action, rsi := o.rsi,
                   price := some o.price, quantity := some quantity,
                   status := "executed", trade_id := some idSt.1,
                   transaction_id := some transaction_id,
                   sequence_number := some sequence_number,
                   request_id := req.request_id,
                   request_hash := request_hash, balances := updated.1,
                   message := some "Trade executed successfully." },
             idSt.2)

/-- Embedding of trader._execute_trade.  Order of steps follows the code:
normalize, seed balances, sample market values (from the oracle), compute
the fingerprint, short-circuit on an existing record with that fingerprint
(the code only fetches after `trade_exists` and falls through when the fetch
returns nothing), then `execute_core`. -/
def execute_trade (cfg : Config) (o : Oracle) (action : String)
    (req : TradeRequest) (st : DBState) :
    Except ExecError TradeResponse × DBState :=
  let pair := normPair cfg req
  let quantity := normQty cfg req
  let prepared := prepare_balances cfg st pair
  let request_hash := reqHash cfg action req
  match (if trade_exists_hash prepared.2 request_hash then
      fetch_trade_by_request_hash prepared.2 request_hash else none) with
  | some existing =>
      (.ok (dupResponse req request_hash prepared.1 existing), prepared.2)
  | none =>
      execute_core cfg o action req prepared.2 pair quantity request_hash
        prepared.1

/-- States reachable from the freshly initialized store by `_execute_trade`
calls under a fixed configuration (the config module is read once per
process), with arbitrary oracle samples and requests at every step. -/
inductive Reachable (cfg : Config) : DBState → Prop
  | init : Reachable cfg initialState
  | step (o : Oracle) (action : String) (req : TradeRequest) (st : DBState) :
      Reachable cfg st → Reachable cfg (execute_trade cfg o action req st).2

/-- Whether a trade row belongs to the (pair, action) stream and has status
`executed`. -/
def isExecutedIn (pair action : String) (t : TradeRecord) : Bool :=
  t.pair == pair && t.action == action && t.status == "executed"

/-- The sequence numbers of the `executed` records of a (pair, action)
stream, in insertion order. -/
def streamSeqs (st : DBState) (pair action : String) : List ℤ :=
  (st.trades.filter (isExecutedIn pair action)).map TradeRecord.sequence_number

/-- The list [1, 2, …, n] of the first n positive integers. -/
def seqList : ℕ → List ℤ
  | 0 => []
  | n + 1 => seqList n ++ [(n : ℤ) + 1]

/-- The sequence-stream invariant: for every (pair, action), the executed
records carry exactly the sequence numbers 1, 2, …, N in order (N the count
of executed records of the stream), and the tracker's last sequence is N. -/
def SeqInvariant (st : DBState) : Prop :=
  ∀ pair action : String,
    streamSeqs st pair action =
      seqList (streamSeqs st pair action).length
    ∧ get_last_sequence st pair action = (streamSeqs st pair action).length

/-- A configuration with the shipped defaults (pair BTCUSDT, thresholds
20/80, seed balances 1 and 50000, default quantity 0.01), used for concrete
instantiations. -/
def cfgEx : Config := ⟨"BTCUSDT", 20, 80, 1, 50000, 1 / 100⟩

/-- A concrete valid trade request. -/
def reqEx : TradeRequest := ⟨none, some (1 / 100), "rid-1", none, none, false⟩

/-- An oracle sample under which a BUY passes the RSI check (15 < 20). -/
def oExec : Oracle := ⟨15, 45000, "TXA", "TXB"⟩

/-- An oracle sample under which a BUY fails the RSI check (55 ≥ 20). -/
def oRej : Oracle := ⟨55, 45000, "TXC", "TXD"⟩

/-- A trade row with transaction id "TXA" and a request hash unrelated to
`reqEx`, used to build collision states. -/
def recA : TradeRecord :=
  ⟨1, "TXA", 1, "hash-A", "BTCUSDT", "BUY", 15, some 45000, some (1 / 100),
    "executed", none, none, none⟩

/-- A trade row with transaction id "TXB" and another unrelated hash. -/
def recB : TradeRecord :=
  ⟨2, "TXB", 2, "hash-B", "BTCUSDT", "BUY", 15, some 45000, some (1 / 100),
    "executed", none, none, none⟩

/-- A store in which both candidate transaction ids of `oExec` are already
taken: the generated id collides, the single regeneration collides again,
and the insert of `record_trade` must fail. -/
def stC3 : DBState :=
  ⟨[recA, recB], 3, [("BTC", 1), ("USDT", 50000)],
    [(("BTCUSDT", "BUY"), 2)]⟩

/-- A trade row carrying the exact fingerprint `_execute_trade` computes for
`reqEx` over `cfgEx`, with no balances snapshot in its metadata. -/
def recDupNoSnap : TradeRecord :=
  ⟨7, "TXOLD", 4, reqHash cfgEx "BUY" reqEx, "BTCUSDT", "BUY", 12,
    some 44000, some (1 / 100), "executed", none, some "rid-0", none⟩

/-- A store already holding `recDupNoSnap`, used to exercise the
duplicate-replay path with a metadata record lacking a balances snapshot. -/
def stC9 : DBState :=
  ⟨[recDupNoSnap], 8, [("BTC", 2), ("USDT", 40000)],
    [(("BTCUSDT", "BUY"), 4)]⟩

/-- A store holding one row with request hash "hash-A" (via `recA`), used to
show the store accepts a second row with the same request hash. -/
def stC7 : DBState := ⟨[recA], 2, [], []⟩

/-- A second oracle sample for replay calls (different market data and
candidate transaction ids than `oExec`). -/
def oExec2 : Oracle := ⟨70, 46000, "TXC", "TXD"⟩

/-- The state after seeding the default balances into the empty store. -/
def stSeedEx : DBState := ⟨[], 1, [("BTC", 1), ("USDT", 50000)], []⟩

/-- The response of the executed BUY of `oExec` on the empty store. -/
def r1Ex : TradeResponse :=
  ⟨"BTCUSDT", "BUY", 15, some 45000, some (1 / 100), "executed", some 1,
    some "TXA", some 1, "rid-1", reqHash cfgEx "BUY" reqEx,
    [("BTC", 1 + 1 / 100), ("USDT", 49550)],
    some "Trade executed successfully."⟩

/-- The state left by the executed BUY of `oExec` on the empty store. -/
def stMidEx : DBState := (execute_trade cfgEx oExec "BUY" reqEx initialState).2

/-- The response of the RSI-rejected BUY of `oRej` on the empty store. -/
def r4Ex : TradeResponse :=
  ⟨"BTCUSDT", "BUY", 55, some 45000, some (1 / 100), "rejected", none, none,
    some 1, "rid-1", reqHash cfgEx "BUY" reqEx,
    [("BTC", 1), ("USDT", 50000)],
    some "RSI is not below oversold threshold."⟩

end RsiBot

namespace RsiBot

theorem lookupBal_upsert_self (a : String) (v : ℚ) (bs : List (String × ℚ)) :
    lookupBal (upsertBal bs a v) a = some v := by
  induction bs with
  | nil => simp [upsertBal, lookupBal]
  | cons p rest ih =>
      obtain ⟨k, w⟩ := p
      by_cases h : (k == a) = true
      · simp [upsertBal, lookupBal, List.find?_cons, h]
      · have h' : (k == a) = false := by simpa using h
        simp only [upsertBal, h', Bool.false_eq_true, if_false, lookupBal,
          List.find?_cons, h'] at ih ⊢
        exact ih

theorem lookupBal_upsert_ne (a k : String) (v : ℚ) (bs : List (String × ℚ))
    (h : k ≠ a) : lookupBal (upsertBal bs a v) k = lookupBal bs k := by
  have hak : (a == k) = false := beq_eq_false_iff_ne.mpr (Ne.symm h)
  induction bs with
  | nil => simp [upsertBal, lookupBal, List.find?_cons, hak]
  | cons p rest ih =>
      obtain ⟨k0, w⟩ := p
      by_cases h0 : (k0 == a) = true
      · have hka : k0 = a := by simpa using h0
        subst hka
        simp [upsertBal, lookupBal, List.find?_cons, hak]
      · have h0' : (k0 == a) = false := by simpa using h0
        simp only [upsertBal, h0', Bool.false_eq_true, if_false, lookupBal,
          List.find?_cons] at ih ⊢
        cases h1 : (k0 == k) <;> simp only [h1] at ih ⊢
        exact ih

theorem lookupBal_append (bs cs : List (String × ℚ)) (k : String) :
    lookupBal (bs ++ cs) k = (lookupBal bs k).or (lookupBal cs k) := by
  simp only [lookupBal, List.find?_append]
  cases List.find? (fun p => p.1 == k) bs <;> simp

theorem mem_upsertBal (bs : List (String × ℚ)) (a : String) (v : ℚ)
    (p : String × ℚ) (hp : p ∈ upsertBal bs a v) : p = (a, v) ∨ p ∈ bs := by
  induction bs with
  | nil =>
      simp only [upsertBal, List.mem_singleton] at hp
      left; exact hp
  | cons q rest ih =>
      obtain ⟨k, w⟩ := q
      by_cases h : (k == a) = true
      · have : k = a := by simpa using h
        subst this
        simp only [upsertBal, beq_self_eq_true, if_true] at hp
        rcases List.mem_cons.mp hp with h1 | h1
        · left; simpa using h1
        · right; exact List.mem_cons_of_mem _ h1
      · have h' : (k == a) = false := by simpa using h
        simp only [upsertBal, h', Bool.false_eq_true, if_false] at hp
        rcases List.mem_cons.mp hp with h1 | h1
        · right; simp [h1]
        · rcases ih h1 with h2 | h2
          · left; exact h2
          · right; exact List.mem_cons_of_mem _ h2

theorem lookupSeq_upsert_self (pair action : String) (v : ℤ)
    (tr : List ((String × String) × ℤ)) :
    lookupSeq (upsertSeq tr pair action v) pair action = some v := by
  induction tr with
  | nil => simp [upsertSeq, lookupSeq]
  | cons p rest ih =>
      obtain ⟨k, w⟩ := p
      cases h : (k.1 == pair && k.2 == action)
      · simp only [upsertSeq, h, Bool.false_eq_true, if_false, lookupSeq,
          List.find?_cons] at ih ⊢
        exact ih
      · simp [upsertSeq, lookupSeq, List.find?_cons, h]

theorem lookupSeq_upsert_ne (pair action p2 a2 : String) (v : ℤ)
    (tr : List ((String × String) × ℤ)) (h : ¬ (p2 = pair ∧ a2 = action)) :
    lookupSeq (upsertSeq tr pair action v) p2 a2 = lookupSeq tr p2 a2 := by
  have hcond : (pair == p2 && action == a2) = false := by
    rcases not_and_or.mp h with h1 | h1
    · simp [beq_eq_false_iff_ne.mpr (Ne.symm h1)]
    · simp [beq_eq_false_iff_ne.mpr (Ne.symm h1)]
  induction tr with
  | nil => simp [upsertSeq, lookupSeq, List.find?_cons, hcond]
  | cons p rest ih =>
      obtain ⟨k, w⟩ := p
      by_cases h0 : (k.1 == pair && k.2 == action) = true
      · obtain ⟨hk1, hk2⟩ : k.1 = pair ∧ k.2 = action := by simpa using h0
        have hkc : (k.1 == p2 && k.2 == a2) = false := by rw [hk1, hk2]; exact hcond
        simp [upsertSeq, h0, lookupSeq, List.find?_cons, hkc]
      · have h0' : (k.1 == pair && k.2 == action) = false := by simpa using h0
        simp only [upsertSeq, h0', Bool.false_eq_true, if_false, lookupSeq,
          List.find?_cons] at ih ⊢
        cases h1 : (k.1 == p2 && k.2 == a2) <;> simp only [h1] at ih ⊢
        exact ih

end RsiBot

namespace RsiBot

theorem ensure_trades (st : DBState) (a : String) (amt : ℚ) :
    (ensure_initial_balance st a amt).trades = st.trades := by
  unfold ensure_initial_balance
  cases lookupBal st.balances a <;> rfl

theorem ensure_nextId (st : DBState) (a : String) (amt : ℚ) :
    (ensure_initial_balance st a amt).nextId = st.nextId := by
  unfold ensure_initial_balance
  cases lookupBal st.balances a <;> rfl

theorem ensure_seqTracker (st : DBState) (a : String) (amt : ℚ) :
    (ensure_initial_balance st a amt).seqTracker = st.seqTracker := by
  unfold ensure_initial_balance
  cases lookupBal st.balances a <;> rfl

theorem seeded_trades (cfg : Config) (req : TradeRequest) (st : DBState) :
    (seeded cfg req st).trades = st.trades := by
  simp [seeded, prepare_balances, ensure_trades]

theorem seeded_nextId (cfg : Config) (req : TradeRequest) (st : DBState) :
    (seeded cfg req st).nextId = st.nextId := by
  simp [seeded, prepare_balances, ensure_nextId]

theorem seeded_seqTracker (cfg : Config) (req : TradeRequest) (st : DBState) :
    (seeded cfg req st).seqTracker = st.seqTracker := by
  simp [seeded, prepare_balances, ensure_seqTracker]

theorem apply_trades (st : DBState) (action pair : String) (q p : ℚ) :
    (apply_balance_updates st action pair q p).2.trades = st.trades := by
  unfold apply_balance_updates
  split <;> rfl

theorem apply_nextId (st : DBState) (action pair : String) (q p : ℚ) :
    (apply_balance_updates st action pair q p).2.nextId = st.nextId := by
  unfold apply_balance_updates
  split <;> rfl

theorem apply_seqTracker (st : DBState) (action pair : String) (q p : ℚ) :
    (apply_balance_updates st action pair q p).2.seqTracker = st.seqTracker := by
  unfold apply_balance_updates
  split <;> rfl

theorem apply_fst (st : DBState) (action pair : String) (q p : ℚ) :
    (apply_balance_updates st action pair q p).1 =
      (apply_balance_updates st action pair q p).2.balances := by
  unfold apply_balance_updates
  split <;> rfl

theorem record_trade_of_collision (st : DBState) (tid : String) (s : ℤ)
    (hsh pair action : String) (rsi : ℚ) (pr q : Option ℚ) (stat : String)
    (mb : Option (List (String × ℚ))) (mr mc : Option String)
    (h : trade_exists_txid st tid = true) :
    record_trade st tid s hsh pair action rsi pr q stat mb mr mc =
      .error () := by
  simp [record_trade, h]

theorem record_trade_of_fresh (st : DBState) (tid : String) (s : ℤ)
    (hsh pair action : String) (rsi : ℚ) (pr q : Option ℚ) (stat : String)
    (mb : Option (List (String × ℚ))) (mr mc : Option String)
    (h : trade_exists_txid st tid = false) :
    record_trade st tid s hsh pair action rsi pr q stat mb mr mc =
      .ok (st.nextId,
        { st with
          trades := st.trades ++
            [⟨st.nextId, tid, s, hsh, pair, action, rsi, pr, q, stat, mb, mr, mc⟩],
          nextId := st.nextId + 1,
          seqTracker := upsertSeq st.seqTracker pair action s }) := by
  simp [record_trade, h]

theorem dedupFetch (st : DBState) (h : String) :
    (if trade_exists_hash st h then fetch_trade_by_request_hash st h
      else none) = fetch_trade_by_request_hash st h := by
  cases hf : fetch_trade_by_request_hash st h with
  | none => split <;> simp [hf]
  | some t =>
      have hex : trade_exists_hash st h = true := by
        unfold fetch_trade_by_request_hash at hf
        have hp := List.find?_some
          (p := fun r : TradeRecord => r.request_hash == h) hf
        exact List.any_eq_true.mpr ⟨t, List.mem_of_find?_eq_some hf, hp⟩
      simp [hex]

theorem execute_trade_eq (cfg : Config) (o : Oracle) (action : String)
    (req : TradeRequest) (st : DBState) :
    execute_trade cfg o action req st =
      match fetch_trade_by_request_hash (seeded cfg req st)
          (reqHash cfg action req) with
      | some existing =>
          (.ok (dupResponse req (reqHash cfg action req)
            (seeded cfg req st).balances existing), seeded cfg req st)
      | none =>
          execute_core cfg o action req (seeded cfg req st) (normPair cfg req)
            (normQty cfg req) (reqHash cfg action req)
            (seeded cfg req st).balances := by
  simp only [execute_trade, dedupFetch]
  rfl

theorem core_seq_error (cfg : Config) (o : Oracle) (action : String)
    (req : TradeRequest) (st1 : DBState) (pair : String) (q : ℚ)
    (hsh : String) (bal : List (String × ℚ)) (e : ExecError)
    (hv : validate_sequence st1 pair action req.sequence_number = .error e) :
    execute_core cfg o action req st1 pair q hsh bal = (.error e, st1) := by
  simp only [execute_core, hv]

theorem core_rsi_reject (cfg : Config) (o : Oracle) (action : String)
    (req : TradeRequest) (st1 : DBState) (pair : String) (q : ℚ)
    (hsh : String) (bal : List (String × ℚ)) (s : ℤ) (msg : String)
    (hv : validate_sequence st1 pair action req.sequence_number = .ok s)
    (hr : check_rsi_conditions cfg action o.rsi req.force = some msg) :
    execute_core cfg o action req st1 pair q hsh bal =
      (.ok (rejectedResponse pair action o.rsi o.price q s req hsh bal msg),
        st1) := by
  simp only [execute_core, hv, hr]

theorem core_funds_reject (cfg : Config) (o : Oracle) (action : String)
    (req : TradeRequest) (st1 : DBState) (pair : String) (q : ℚ)
    (hsh : String) (bal : List (String × ℚ)) (s : ℤ) (msg : String)
    (hv : validate_sequence st1 pair action req.sequence_number = .ok s)
    (hr : check_rsi_conditions cfg action o.rsi req.force = none)
    (hb : validate_balances st1 action pair q o.price = some msg) :
    execute_core cfg o action req st1 pair q hsh bal =
      (.ok (rejectedResponse pair action o.rsi o.price q s req hsh bal msg),
        st1) := by
  simp only [execute_core, hv, hr, hb]

theorem core_store_fail (cfg : Config) (o : Oracle) (action : String)
    (req : TradeRequest) (st1 : DBState) (pair : String) (q : ℚ)
    (hsh : String) (bal : List (String × ℚ)) (s : ℤ) (tid : String)
    (hv : validate_sequence st1 pair action req.sequence_number = .ok s)
    (hr : check_rsi_conditions cfg action o.rsi req.force = none)
    (hb : validate_balances st1 action pair q o.price = none)
    (htid : (if trade_exists_txid st1 o.txid1 then o.txid2 else o.txid1) = tid)
    (hrec : record_trade (apply_balance_updates st1 action pair q o.price).2
      tid s hsh pair action o.rsi (some o.price) (some q) "executed"
      (some (apply_balance_updates st1 action pair q o.price).1)
      (some req.request_id) req.client_ref = .error ()) :
    execute_core cfg o action req st1 pair q hsh bal =
      (.error .storeFailure,
        (apply_balance_updates st1 action pair q o.price).2) := by
  simp only [execute_core, hv, hr, hb, htid, hrec]

theorem core_executed (cfg : Config) (o : Oracle) (action : String)
    (req : TradeRequest) (st1 : DBState) (pair : String) (q : ℚ)
    (hsh : String) (bal : List (String × ℚ)) (s : ℤ) (tid : String)
    (idSt : ℕ × DBState)
    (hv : validate_sequence st1 pair action req.sequence_number = .ok s)
    (hr : check_rsi_conditions cfg action o.rsi req.force = none)
    (hb : validate_balances st1 action pair q o.price = none)
    (htid : (if trade_exists_txid st1 o.txid1 then o.txid2 else o.txid1) = tid)
    (hrec : record_trade (apply_balance_updates st1 action pair q o.price).2
      tid s hsh pair action o.rsi (some o.price) (some q) "executed"
      (some (apply_balance_updates st1 action pair q o.price).1)
      (some req.request_id) req.client_ref = .ok idSt) :
    execute_core cfg o action req st1 pair q hsh bal =
      (.ok { pair := pair, action := action, rsi := o.rsi,
             price := some o.price, quantity := some q,
             status := "executed", trade_id := some idSt.1,
             transaction_id := some tid, sequence_number := some s,
             request_id := req.request_id, request_hash := hsh,
             balances := (apply_balance_updates st1 action pair q o.price).1,
             message := some "Trade executed successfully." },
        idSt.2) := by
  simp only [execute_core, hv, hr, hb, htid, hrec]

end RsiBot

namespace RsiBot

/-- C5: with next_expected = last recorded sequence + 1 for the (pair, action)
stream, supplying a sequence number fails with the stale-sequence error
exactly when it is below next_expected, fails with the sequence-gap error
exactly when it is above next_expected, is accepted with the supplied value
exactly when it equals next_expected, and omitting it silently assigns
next_expected. -/
theorem claim_C5_sequence_guard (st : DBState) (pair action : String)
    (s : ℤ) :
    (validate_sequence st pair action (some s) =
        .error (.staleSequence s (get_last_sequence st pair action + 1)) ↔
      s < get_last_sequence st pair action + 1)
    ∧ (validate_sequence st pair action (some s) =
        .error (.sequenceGap s (get_last_sequence st pair action + 1)) ↔
      get_last_sequence st pair action + 1 < s)
    ∧ (validate_sequence st pair action (some s) = .ok s ↔
      s = get_last_sequence st pair action + 1)
    ∧ validate_sequence st pair action none =
      .ok (get_last_sequence st pair action + 1) := by
  simp only [validate_sequence, get_next_sequence]
  refine ⟨?_, ?_, ?_, by trivial⟩ <;> split_ifs with h1 h2 <;>
    simp_all <;> omega

/-- C8: with force unset, the RSI check passes a BUY exactly when the sampled
RSI is strictly below the oversold threshold and a SELL exactly when it is
strictly above the overbought threshold; with force set it is bypassed for
both actions. -/
theorem claim_C8_rsi_threshold (cfg : Config) (rsi : ℚ) :
    check_rsi_conditions cfg "BUY" rsi true = none
    ∧ check_rsi_conditions cfg "SELL" rsi true = none
    ∧ (check_rsi_conditions cfg "BUY" rsi false = none ↔
        rsi < cfg.RSI_OVERSOLD)
    ∧ (check_rsi_conditions cfg "SELL" rsi false = none ↔
        cfg.RSI_OVERBOUGHT < rsi) := by
  refine ⟨rfl, rfl, ?_, ?_⟩ <;>
    simp [check_rsi_conditions, not_le]

/-- C10: the store-level balance adjustment applies no non-negativity guard:
for every state, asset and delta it returns and persists exactly the previous
balance plus the delta (an absent row reading as 0), leaving the other state
components and other assets untouched; in particular on the empty balances
table the result is the bare delta, whatever its sign. -/
theorem claim_C10_adjust_unguarded (st : DBState) (asset : String)
    (delta : ℚ) :
    (adjust_balance st asset delta).1 = get_balance st asset + delta
    ∧ get_balance (adjust_balance st asset delta).2 asset =
      get_balance st asset + delta
    ∧ (adjust_balance st asset delta).2.balances =
      upsertBal st.balances asset (get_balance st asset + delta)
    ∧ (adjust_balance st asset delta).2.trades = st.trades
    ∧ (adjust_balance st asset delta).2.seqTracker = st.seqTracker
    ∧ (∀ tr ni sq, get_balance ⟨tr, ni, [], sq⟩ asset = 0)
    ∧ (∀ tr ni sq,
        (adjust_balance ⟨tr, ni, [], sq⟩ asset delta).1 = delta) := by
  refine ⟨rfl, ?_, rfl, rfl, rfl, fun tr ni sq => rfl, fun tr ni sq => ?_⟩
  · simp [get_balance, adjust_balance, lookupBal_upsert_self]
  · simp [adjust_balance, get_balance, lookupBal]

end RsiBot

namespace RsiBot

/-- C4: an execute call that returns a `rejected` response leaves the store
exactly as the initial balance seeding left it: apart from seeding absent
balance rows, all balances, the sequence tracker and the trades table are
unchanged, and in particular no trade record is written and the tracker is
bit-for-bit the caller's. -/
theorem claim_C4_rejection_frame (cfg : Config) (o : Oracle) (action : String)
    (req : TradeRequest) (st : DBState) (resp : TradeResponse) (st2 : DBState)
    (hex : execute_trade cfg o action req st = (.ok resp, st2))
    (hstat : resp.status = "rejected") :
    st2 = seeded cfg req st ∧ st2.trades = st.trades
    ∧ st2.seqTracker = st.seqTracker ∧ st2.nextId = st.nextId := by
  have hframe : st2 = seeded cfg req st →
      st2.trades = st.trades ∧ st2.seqTracker = st.seqTracker
      ∧ st2.nextId = st.nextId := by
    intro h
    exact ⟨h ▸ seeded_trades cfg req st, h ▸ seeded_seqTracker cfg req st,
      h ▸ seeded_nextId cfg req st⟩
  rw [execute_trade_eq] at hex
  cases hfetch : fetch_trade_by_request_hash (seeded cfg req st)
      (reqHash cfg action req) with
  | some t =>
      rw [hfetch] at hex
      have h2 : st2 = seeded cfg req st :=
        ((Prod.mk.injEq _ _ _ _).mp hex).2.symm
      exact ⟨h2, hframe h2⟩
  | none =>
      rw [hfetch] at hex
      cases hv : validate_sequence (seeded cfg req st) (normPair cfg req)
          action req.sequence_number with
      | error e =>
          rw [core_seq_error _ _ _ _ _ _ _ _ _ _ hv] at hex
          exact absurd (congrArg Prod.fst hex) (by simp)
      | ok s =>
          cases hr : check_rsi_conditions cfg action o.rsi req.force with
          | some msg =>
              rw [core_rsi_reject _ _ _ _ _ _ _ _ _ _ _ hv hr] at hex
              have h2 : st2 = seeded cfg req st :=
                ((Prod.mk.injEq _ _ _ _).mp hex).2.symm
              exact ⟨h2, hframe h2⟩
          | none =>
              cases hb : validate_balances (seeded cfg req st) action
                  (normPair cfg req) (normQty cfg req) o.price with
              | some msg =>
                  rw [core_funds_reject _ _ _ _ _ _ _ _ _ _ _ hv hr hb] at hex
                  have h2 : st2 = seeded cfg req st :=
                    ((Prod.mk.injEq _ _ _ _).mp hex).2.symm
                  exact ⟨h2, hframe h2⟩
              | none =>
                  cases hrec : record_trade
                      (apply_balance_updates (seeded cfg req st) action
                        (normPair cfg req) (normQty cfg req) o.price).2
                      (if trade_exists_txid (seeded cfg req st) o.txid1
                        then o.txid2 else o.txid1)
                      s (reqHash cfg action req) (normPair cfg req) action
                      o.rsi (some o.price) (some (normQty cfg req)) "executed"
                      (some (apply_balance_updates (seeded cfg req st) action
                        (normPair cfg req) (normQty cfg req) o.price).1)
                      (some req.request_id) req.client_ref with
                  | error u =>
                      cases u
                      rw [core_store_fail _ _ _ _ _ _ _ _ _ _ _ hv hr hb rfl
                        hrec] at hex
                      exact absurd (congrArg Prod.fst hex) (by simp)
                  | ok idSt =>
                      rw [core_executed _ _ _ _ _ _ _ _ _ _ _ idSt hv hr hb rfl
                        hrec] at hex
                      have hresp := Except.ok.inj
                        ((Prod.mk.injEq _ _ _ _).mp hex).1
                      rw [← hresp] at hstat
                      simp at hstat

end RsiBot

namespace RsiBot

/-- C9: on the duplicate-replay path, when the stored record's metadata has
no balances snapshot, the response carries the live balances read after the
seeding step of the present call, and its request_id is the incoming
request's, not the stored record's. -/
theorem claim_C9_replay_fallbacks (cfg : Config) (o : Oracle)
    (action : String) (req : TradeRequest) (st : DBState) (t : TradeRecord)
    (hfetch : fetch_trade_by_request_hash (seeded cfg req st)
      (reqHash cfg action req) = some t)
    (hmeta : t.metaBalances = none) :
    execute_trade cfg o action req st =
      (.ok (dupResponse req (reqHash cfg action req)
        (seeded cfg req st).balances t), seeded cfg req st)
    ∧ (dupResponse req (reqHash cfg action req)
        (seeded cfg req st).balances t).balances =
      (seeded cfg req st).balances
    ∧ (dupResponse req (reqHash cfg action req)
        (seeded cfg req st).balances t).request_id = req.request_id := by
  refine ⟨?_, by simp [dupResponse, hmeta], rfl⟩
  rw [execute_trade_eq, hfetch]

end RsiBot

namespace RsiBot

theorem lookupBal_getD_nonneg (bs : List (String × ℚ)) (k : String)
    (h : ∀ p ∈ bs, 0 ≤ p.2) : 0 ≤ (lookupBal bs k).getD 0 := by
  unfold lookupBal
  cases hf : List.find? (fun p => p.1 == k) bs with
  | none => simp
  | some p => simpa using h p (List.mem_of_find?_eq_some hf)

theorem get_balance_nonneg (st : DBState) (k : String)
    (h : ∀ p ∈ st.balances, 0 ≤ p.2) : 0 ≤ get_balance st k :=
  lookupBal_getD_nonneg st.balances k h

theorem upsertBal_nonneg (bs : List (String × ℚ)) (a : String) (v : ℚ)
    (h : ∀ p ∈ bs, 0 ≤ p.2) (hv : 0 ≤ v) :
    ∀ p ∈ upsertBal bs a v, 0 ≤ p.2 := by
  intro p hp
  rcases mem_upsertBal bs a v p hp with h1 | h1
  · rw [h1]; exact hv
  · exact h p h1

theorem ensure_nonneg (st : DBState) (a : String) (amt : ℚ)
    (h : ∀ p ∈ st.balances, 0 ≤ p.2) (hamt : 0 ≤ amt) :
    ∀ p ∈ (ensure_initial_balance st a amt).balances, 0 ≤ p.2 := by
  unfold ensure_initial_balance
  cases lookupBal st.balances a with
  | some v => exact h
  | none =>
      intro p hp
      rcases List.mem_append.mp hp with h1 | h1
      · exact h p h1
      · rw [List.mem_singleton.mp h1]; exact hamt

theorem seeded_nonneg (cfg : Config) (req : TradeRequest) (st : DBState)
    (h : ∀ p ∈ st.balances, 0 ≤ p.2) (hb : 0 ≤ cfg.DEFAULT_BASE_BALANCE)
    (hq : 0 ≤ cfg.DEFAULT_QUOTE_BALANCE) :
    ∀ p ∈ (seeded cfg req st).balances, 0 ≤ p.2 := by
  unfold seeded prepare_balances
  exact ensure_nonneg _ _ _ (ensure_nonneg _ _ _ h hb) hq

theorem validate_balances_none_buy (st1 : DBState) (pair : String)
    (q price : ℚ)
    (hb : validate_balances st1 "BUY" pair q price = none) :
    price * q ≤ get_balance st1 (parse_pair pair).2 := by
  unfold validate_balances at hb
  simp only [beq_self_eq_true, if_true] at hb
  by_cases h : get_balance st1 (parse_pair pair).2 < price * q
  · rw [if_pos h] at hb; cases hb
  · exact le_of_not_lt h

theorem validate_balances_none_other (st1 : DBState) (action pair : String)
    (q price : ℚ) (ha : (action == "BUY") = false)
    (hb : validate_balances st1 action pair q price = none) :
    q ≤ get_balance st1 (parse_pair pair).1 := by
  unfold validate_balances at hb
  simp only [ha, Bool.false_eq_true, if_false] at hb
  by_cases h : get_balance st1 (parse_pair pair).1 < q
  · rw [if_pos h] at hb; cases hb
  · exact le_of_not_lt h

theorem apply_nonneg (st1 : DBState) (action pair : String) (q price : ℚ)
    (hb : validate_balances st1 action pair q price = none)
    (hst : ∀ p ∈ st1.balances, 0 ≤ p.2) (hq : 0 ≤ q) (hp : 0 ≤ price) :
    ∀ p ∈ (apply_balance_updates st1 action pair q price).2.balances,
      0 ≤ p.2 := by
  cases ha : (action == "BUY") with
  | true =>
      have ha' : action = "BUY" := by simpa using ha
      subst ha'
      have hfund := validate_balances_none_buy st1 pair q price hb
      unfold apply_balance_updates adjust_balance get_balance
      simp only [beq_self_eq_true, if_true]
      refine upsertBal_nonneg _ _ _ ?_ ?_
      · exact upsertBal_nonneg _ _ _ hst (by
          have := hfund
          unfold get_balance at this
          linarith)
      · have h0 : 0 ≤ (lookupBal
            (upsertBal st1.balances (parse_pair pair).2
              ((lookupBal st1.balances (parse_pair pair).2).getD 0 +
                -(price * q))) (parse_pair pair).1).getD 0 := by
          refine lookupBal_getD_nonneg _ _ ?_
          refine upsertBal_nonneg _ _ _ hst ?_
          have := hfund
          unfold get_balance at this
          linarith
        linarith
  | false =>
      have hfund := validate_balances_none_other st1 action pair q price ha hb
      unfold apply_balance_updates adjust_balance get_balance
      simp only [ha, Bool.false_eq_true, if_false]
      refine upsertBal_nonneg _ _ _ ?_ ?_
      · exact upsertBal_nonneg _ _ _ hst (by
          have := hfund
          unfold get_balance at this
          linarith)
      · have h0 : 0 ≤ (lookupBal
            (upsertBal st1.balances (parse_pair pair).1
              ((lookupBal st1.balances (parse_pair pair).1).getD 0 + -q))
            (parse_pair pair).2).getD 0 := by
          refine lookupBal_getD_nonneg _ _ ?_
          refine upsertBal_nonneg _ _ _ hst ?_
          have := hfund
          unfold get_balance at this
          linarith
        have hpq : 0 ≤ price * q := mul_nonneg hp hq
        linarith

theorem record_trade_ok_balances (st : DBState) (tid : String) (s : ℤ)
    (hsh pair action : String) (rsi : ℚ) (pr q : Option ℚ) (stat : String)
    (mb : Option (List (String × ℚ))) (mr mc : Option String)
    (idSt : ℕ × DBState)
    (h : record_trade st tid s hsh pair action rsi pr q stat mb mr mc =
      .ok idSt) : idSt.2.balances = st.balances := by
  unfold record_trade at h
  by_cases hc : trade_exists_txid st tid = true
  · rw [if_pos hc] at h; cases h
  · rw [if_neg hc] at h
    cases h
    rfl

end RsiBot

namespace RsiBot

/-- C1: starting from a store whose balances are all non-negative (with
non-negative seed defaults, a non-negative sampled price and a non-negative
normalized quantity, as the production configuration, price mock and request
validator guarantee), every balance is still non-negative after any execute
call; moreover whenever the call mutates the balances at all, the
pre-mutation sufficiency check had passed: a BUY found quote ≥ price×quantity
and a non-BUY (SELL branch) found base ≥ quantity, so an insufficient request
was rejected before any mutation. -/
theorem claim_C1_no_negative_balances (cfg : Config) (o : Oracle)
    (action : String) (req : TradeRequest) (st : DBState)
    (hbal : ∀ p ∈ st.balances, 0 ≤ p.2)
    (hbase : 0 ≤ cfg.DEFAULT_BASE_BALANCE)
    (hquote : 0 ≤ cfg.DEFAULT_QUOTE_BALANCE)
    (hprice : 0 ≤ o.price) (hqty : 0 ≤ normQty cfg req) :
    (∀ p ∈ (execute_trade cfg o action req st).2.balances, 0 ≤ p.2)
    ∧ ((execute_trade cfg o action req st).2.balances ≠
        (seeded cfg req st).balances →
      (action = "BUY" → o.price * normQty cfg req ≤
        get_balance (seeded cfg req st) (parse_pair (normPair cfg req)).2)
      ∧ (action ≠ "BUY" → normQty cfg req ≤
        get_balance (seeded cfg req st) (parse_pair (normPair cfg req)).1)) := by
  have hseed : ∀ p ∈ (seeded cfg req st).balances, 0 ≤ p.2 :=
    seeded_nonneg cfg req st hbal hbase hquote
  have hsuff : validate_balances (seeded cfg req st) action (normPair cfg req)
      (normQty cfg req) o.price = none →
      (action = "BUY" → o.price * normQty cfg req ≤
        get_balance (seeded cfg req st) (parse_pair (normPair cfg req)).2)
      ∧ (action ≠ "BUY" → normQty cfg req ≤
        get_balance (seeded cfg req st) (parse_pair (normPair cfg req)).1) := by
    intro hb
    constructor
    · intro ha; subst ha
      exact validate_balances_none_buy _ _ _ _ hb
    · intro ha
      exact validate_balances_none_other _ _ _ _ _
        (beq_eq_false_iff_ne.mpr ha) hb
  rw [execute_trade_eq]
  cases hfetch : fetch_trade_by_request_hash (seeded cfg req st)
      (reqHash cfg action req) with
  | some t =>
      exact ⟨hseed, fun hne => absurd rfl hne⟩
  | none =>
      cases hv : validate_sequence (seeded cfg req st) (normPair cfg req)
          action req.sequence_number with
      | error e =>
          rw [core_seq_error _ _ _ _ _ _ _ _ _ _ hv]
          exact ⟨hseed, fun hne => absurd rfl hne⟩
      | ok s =>
          cases hr : check_rsi_conditions cfg action o.rsi req.force with
          | some msg =>
              rw [core_rsi_reject _ _ _ _ _ _ _ _ _ _ _ hv hr]
              exact ⟨hseed, fun hne => absurd rfl hne⟩
          | none =>
              cases hb : validate_balances (seeded cfg req st) action
                  (normPair cfg req) (normQty cfg req) o.price with
              | some msg =>
                  rw [core_funds_reject _ _ _ _ _ _ _ _ _ _ _ hv hr hb]
                  exact ⟨hseed, fun hne => absurd rfl hne⟩
              | none =>
                  have happly : ∀ p ∈ (apply_balance_updates
                      (seeded cfg req st) action (normPair cfg req)
                      (normQty cfg req) o.price).2.balances, 0 ≤ p.2 :=
                    apply_nonneg _ _ _ _ _ hb hseed hqty hprice
                  cases hrec : record_trade
                      (apply_balance_updates (seeded cfg req st) action
                        (normPair cfg req) (normQty cfg req) o.price).2
                      (if trade_exists_txid (seeded cfg req st) o.txid1
                        then o.txid2 else o.txid1)
                      s (reqHash cfg action req) (normPair cfg req) action
                      o.rsi (some o.price) (some (normQty cfg req)) "executed"
                      (some (apply_balance_updates (seeded cfg req st) action
                        (normPair cfg req) (normQty cfg req) o.price).1)
                      (some req.request_id) req.client_ref with
                  | error u =>
                      cases u
                      rw [core_store_fail _ _ _ _ _ _ _ _ _ _ _ hv hr hb rfl
                        hrec]
                      exact ⟨happly, fun _ => hsuff hb⟩
                  | ok idSt =>
                      rw [core_executed _ _ _ _ _ _ _ _ _ _ _ idSt hv hr hb rfl
                        hrec]
                      have hbaleq := record_trade_ok_balances _ _ _ _ _ _ _ _
                        _ _ _ _ _ idSt hrec
                      rw [hbaleq]
                      exact ⟨happly, fun _ => hsuff hb⟩

end RsiBot

namespace RsiBot

theorem lookup_ensure_self_isSome (st : DBState) (a : String) (amt : ℚ) :
    (lookupBal (ensure_initial_balance st a amt).balances a).isSome := by
  unfold ensure_initial_balance
  cases hl : lookupBal st.balances a with
  | some v => simp [hl]
  | none => simp [lookupBal_append, hl, lookupBal, List.find?_cons]

theorem lookup_ensure_mono (st : DBState) (a k : String) (amt : ℚ)
    (h : (lookupBal st.balances k).isSome) :
    (lookupBal (ensure_initial_balance st a amt).balances k).isSome := by
  unfold ensure_initial_balance
  cases hl : lookupBal st.balances a with
  | some v => exact h
  | none =>
      rw [lookupBal_append]
      cases hk : lookupBal st.balances k with
      | some v => simp
      | none => rw [hk] at h; cases h

theorem ensure_of_isSome (st : DBState) (a : String) (amt : ℚ)
    (h : (lookupBal st.balances a).isSome) :
    ensure_initial_balance st a amt = st := by
  unfold ensure_initial_balance
  cases hl : lookupBal st.balances a with
  | some v => rfl
  | none => rw [hl] at h; cases h

theorem seeded_base_isSome (cfg : Config) (req : TradeRequest) (st : DBState) :
    (lookupBal (seeded cfg req st).balances
      (parse_pair (normPair cfg req)).1).isSome := by
  unfold seeded prepare_balances
  exact lookup_ensure_mono _ _ _ _ (lookup_ensure_self_isSome _ _ _)

theorem seeded_quote_isSome (cfg : Config) (req : TradeRequest)
    (st : DBState) :
    (lookupBal (seeded cfg req st).balances
      (parse_pair (normPair cfg req)).2).isSome := by
  unfold seeded prepare_balances
  exact lookup_ensure_self_isSome _ _ _

theorem seeded_of_present (cfg : Config) (req : TradeRequest) (st : DBState)
    (h1 : (lookupBal st.balances (parse_pair (normPair cfg req)).1).isSome)
    (h2 : (lookupBal st.balances (parse_pair (normPair cfg req)).2).isSome) :
    seeded cfg req st = st := by
  simp only [seeded, prepare_balances]
  rw [ensure_of_isSome _ _ _ h1, ensure_of_isSome _ _ _ h2]

theorem lookup_upsert_mono (bs : List (String × ℚ)) (a k : String) (v : ℚ)
    (h : (lookupBal bs k).isSome) :
    (lookupBal (upsertBal bs a v) k).isSome := by
  by_cases hk : k = a
  · subst hk; simp [lookupBal_upsert_self]
  · rw [lookupBal_upsert_ne _ _ _ _ hk]; exact h

theorem apply_presence (st1 : DBState) (action pair : String) (q price : ℚ)
    (k : String) (h : (lookupBal st1.balances k).isSome) :
    (lookupBal (apply_balance_updates st1 action pair q price).2.balances
      k).isSome := by
  unfold apply_balance_updates adjust_balance
  split <;> exact lookup_upsert_mono _ _ _ _ (lookup_upsert_mono _ _ _ _ h)

theorem reqHash_congr (cfg : Config) (action : String)
    (req req2 : TradeRequest) (hp : req2.pair = req.pair)
    (hq : req2.quantity = req.quantity)
    (hr : req2.request_id = req.request_id)
    (hc : req2.client_ref = req.client_ref) :
    reqHash cfg action req2 = reqHash cfg action req := by
  unfold reqHash normPair normQty
  rw [hp, hq, hr, hc]

theorem normPair_congr (cfg : Config) (req req2 : TradeRequest)
    (hp : req2.pair = req.pair) : normPair cfg req2 = normPair cfg req := by
  unfold normPair
  rw [hp]

end RsiBot

namespace RsiBot

theorem record_trade_ok_shape (st : DBState) (tid : String) (s : ℤ)
    (hsh pair action : String) (rsi : ℚ) (pr q : Option ℚ) (stat : String)
    (mb : Option (List (String × ℚ))) (mr mc : Option String)
    (idSt : ℕ × DBState)
    (h : record_trade st tid s hsh pair action rsi pr q stat mb mr mc =
      .ok idSt) :
    idSt.1 = st.nextId
    ∧ idSt.2.trades = st.trades ++
        [⟨st.nextId, tid, s, hsh, pair, action, rsi, pr, q, stat, mb, mr, mc⟩]
    ∧ idSt.2.balances = st.balances
    ∧ idSt.2.seqTracker = upsertSeq st.seqTracker pair action s
    ∧ idSt.2.nextId = st.nextId + 1 := by
  unfold record_trade at h
  by_cases hc : trade_exists_txid st tid = true
  · rw [if_pos hc] at h; cases h
  · rw [if_neg hc] at h
    cases h
    exact ⟨rfl, rfl, rfl, rfl, rfl⟩

theorem execute_replay (cfg : Config) (o : Oracle) (action : String)
    (req2 : TradeRequest) (stMid : DBState) (t : TradeRecord)
    (hpres1 : (lookupBal stMid.balances
      (parse_pair (normPair cfg req2)).1).isSome)
    (hpres2 : (lookupBal stMid.balances
      (parse_pair (normPair cfg req2)).2).isSome)
    (hfetch2 : fetch_trade_by_request_hash stMid
      (reqHash cfg action req2) = some t) :
    execute_trade cfg o action req2 stMid =
      (.ok (dupResponse req2 (reqHash cfg action req2) stMid.balances t),
        stMid) := by
  have hs := seeded_of_present cfg req2 stMid hpres1 hpres2
  rw [execute_trade_eq, hs, hfetch2]

/-- C2 (amended): when the first of two execute calls with identical
(pair, action, quantity, request_id, client_ref) returns an `executed`
response — directly, or as a replay of an executed record — the second call
returns the same transaction_id, trade_id, sequence_number and status, and
performs no ledger mutation (its final state is exactly the state the first
call left).  The unamended claim fails for first calls that return
`rejected`, which write nothing and can flip outcome on retry. -/
theorem claim_C2_idempotent_executed (cfg : Config) (o1 o2 : Oracle)
    (action : String) (req req2 : TradeRequest) (st stMid : DBState)
    (r1 : TradeResponse)
    (hp : req2.pair = req.pair) (hq : req2.quantity = req.quantity)
    (hrid : req2.request_id = req.request_id)
    (hcref : req2.client_ref = req.client_ref)
    (h1 : execute_trade cfg o1 action req st = (.ok r1, stMid))
    (hstat : r1.status = "executed") :
    (execute_trade cfg o2 action req2 stMid).2 = stMid
    ∧ (execute_trade cfg o2 action req2 stMid).1.toOption.map
        TradeResponse.transaction_id = some r1.transaction_id
    ∧ (execute_trade cfg o2 action req2 stMid).1.toOption.map
        TradeResponse.trade_id = some r1.trade_id
    ∧ (execute_trade cfg o2 action req2 stMid).1.toOption.map
        TradeResponse.sequence_number = some r1.sequence_number
    ∧ (execute_trade cfg o2 action req2 stMid).1.toOption.map
        TradeResponse.status = some r1.status := by
  have hH := reqHash_congr cfg action req req2 hp hq hrid hcref
  have hNP := normPair_congr cfg req req2 hp
  rw [execute_trade_eq] at h1
  cases hfetch : fetch_trade_by_request_hash (seeded cfg req st)
      (reqHash cfg action req) with
  | some t =>
      rw [hfetch] at h1
      have hr1 : dupResponse req (reqHash cfg action req)
          (seeded cfg req st).balances t = r1 :=
        Except.ok.inj ((Prod.mk.injEq _ _ _ _).mp h1).1
      have hst : seeded cfg req st = stMid :=
        ((Prod.mk.injEq _ _ _ _).mp h1).2
      have hpres1 : (lookupBal stMid.balances
          (parse_pair (normPair cfg req2)).1).isSome := by
        rw [hNP, ← hst]; exact seeded_base_isSome cfg req st
      have hpres2 : (lookupBal stMid.balances
          (parse_pair (normPair cfg req2)).2).isSome := by
        rw [hNP, ← hst]; exact seeded_quote_isSome cfg req st
      have hfetch2 : fetch_trade_by_request_hash stMid
          (reqHash cfg action req2) = some t := by
        rw [hH, ← hst]; exact hfetch
      rw [execute_replay cfg o2 action req2 stMid t hpres1 hpres2 hfetch2]
      rw [← hr1]
      exact ⟨rfl, rfl, rfl, rfl, rfl⟩
  | none =>
      rw [hfetch] at h1
      cases hv : validate_sequence (seeded cfg req st) (normPair cfg req)
          action req.sequence_number with
      | error e =>
          rw [core_seq_error _ _ _ _ _ _ _ _ _ _ hv] at h1
          exact absurd (congrArg Prod.fst h1) (by simp)
      | ok s =>
          cases hr : check_rsi_conditions cfg action o1.rsi req.force with
          | some msg =>
              rw [core_rsi_reject _ _ _ _ _ _ _ _ _ _ _ hv hr] at h1
              have := Except.ok.inj ((Prod.mk.injEq _ _ _ _).mp h1).1
              rw [← this] at hstat
              simp [rejectedResponse] at hstat
          | none =>
              cases hb : validate_balances (seeded cfg req st) action
                  (normPair cfg req) (normQty cfg req) o1.price with
              | some msg =>
                  rw [core_funds_reject _ _ _ _ _ _ _ _ _ _ _ hv hr hb] at h1
                  have := Except.ok.inj ((Prod.mk.injEq _ _ _ _).mp h1).1
                  rw [← this] at hstat
                  simp [rejectedResponse] at hstat
              | none =>
                  cases hrec : record_trade
                      (apply_balance_updates (seeded cfg req st) action
                        (normPair cfg req) (normQty cfg req) o1.price).2
                      (if trade_exists_txid (seeded cfg req st) o1.txid1
                        then o1.txid2 else o1.txid1)
                      s (reqHash cfg action req) (normPair cfg req) action
                      o1.rsi (some o1.price) (some (normQty cfg req))
                      "executed"
                      (some (apply_balance_updates (seeded cfg req st) action
                        (normPair cfg req) (normQty cfg req) o1.price).1)
                      (some req.request_id) req.client_ref with
                  | error u =>
                      cases u
                      rw [core_store_fail _ _ _ _ _ _ _ _ _ _ _ hv hr hb rfl
                        hrec] at h1
                      exact absurd (congrArg Prod.fst h1) (by simp)
                  | ok idSt =>
                      rw [core_executed _ _ _ _ _ _ _ _ _ _ _ idSt hv hr hb rfl
                        hrec] at h1
                      obtain ⟨hid1, htr, hbals, hseq, hnid⟩ :=
                        record_trade_ok_shape _ _ _ _ _ _ _ _ _ _ _ _ _ _ hrec
                      have hr1 := Except.ok.inj
                        ((Prod.mk.injEq _ _ _ _).mp h1).1
                      have hst : idSt.2 = stMid :=
                        ((Prod.mk.injEq _ _ _ _).mp h1).2
                      have hpres1 : (lookupBal stMid.balances
                          (parse_pair (normPair cfg req2)).1).isSome := by
                        rw [hNP, ← hst, hbals]
                        exact apply_presence _ _ _ _ _ _
                          (seeded_base_isSome cfg req st)
                      have hpres2 : (lookupBal stMid.balances
                          (parse_pair (normPair cfg req2)).2).isSome := by
                        rw [hNP, ← hst, hbals]
                        exact apply_presence _ _ _ _ _ _
                          (seeded_quote_isSome cfg req st)
                      have hfindNone : List.find?
                          (fun t => t.request_hash == reqHash cfg action req)
                          (apply_balance_updates (seeded cfg req st) action
                            (normPair cfg req) (normQty cfg req)
                            o1.price).2.trades = none := by
                        rw [apply_trades]
                        exact hfetch
                      have hfetch2 : fetch_trade_by_request_hash stMid
                          (reqHash cfg action req2) = some
                          ⟨(apply_balance_updates (seeded cfg req st) action
                              (normPair cfg req) (normQty cfg req)
                              o1.price).2.nextId,
                            (if trade_exists_txid (seeded cfg req st) o1.txid1
                              then o1.txid2 else o1.txid1),
                            s, reqHash cfg action req, normPair cfg req,
                            action, o1.rsi, some o1.price,
                            some (normQty cfg req), "executed",
                            some (apply_balance_updates (seeded cfg req st)
                              action (normPair cfg req) (normQty cfg req)
                              o1.price).1,
                            some req.request_id, req.client_ref⟩ := by
                        rw [hH, ← hst]
                        unfold fetch_trade_by_request_hash
                        rw [htr, List.find?_append, hfindNone]
                        simp
                      rw [execute_replay cfg o2 action req2 stMid _ hpres1
                        hpres2 hfetch2]
                      rw [← hr1]
                      refine ⟨rfl, rfl, ?_, rfl, rfl⟩
                      simp [dupResponse, hid1]
                      exact ⟨_, rfl, rfl⟩

end RsiBot

namespace RsiBot

theorem streamSeqs_congr (st1 st2 : DBState) (p a : String)
    (h : st1.trades = st2.trades) :
    streamSeqs st1 p a = streamSeqs st2 p a := by
  unfold streamSeqs
  rw [h]

theorem get_last_congr (st1 st2 : DBState) (p a : String)
    (h : st1.seqTracker = st2.seqTracker) :
    get_last_sequence st1 p a = get_last_sequence st2 p a := by
  unfold get_last_sequence lookupSeq
  rw [h]

theorem validate_sequence_ok_val (st : DBState) (pair action : String)
    (sn : Option ℤ) (s : ℤ)
    (h : validate_sequence st pair action sn = .ok s) :
    s = get_last_sequence st pair action + 1 := by
  unfold validate_sequence get_next_sequence at h
  cases sn with
  | none => exact (Except.ok.inj h).symm
  | some s0 =>
      simp only at h
      by_cases h1 : s0 < get_last_sequence st pair action + 1
      · rw [if_pos h1] at h; cases h
      · rw [if_neg h1] at h
        by_cases h2 : s0 > get_last_sequence st pair action + 1
        · rw [if_pos h2] at h; cases h
        · rw [if_neg h2] at h
          have hinj := Except.ok.inj h
          omega

theorem seqInvariant_of_frame (st1 st2 : DBState)
    (htr : st1.trades = st2.trades) (hsq : st1.seqTracker = st2.seqTracker)
    (h : SeqInvariant st2) : SeqInvariant st1 := by
  intro p a
  rw [streamSeqs_congr st1 st2 p a htr, get_last_congr st1 st2 p a hsq]
  exact h p a

theorem streamSeqs_append (st st2 : DBState) (t : TradeRecord)
    (p a : String) (h : st2.trades = st.trades ++ [t]) :
    streamSeqs st2 p a = streamSeqs st p a ++
      (if isExecutedIn p a t then [t.sequence_number] else []) := by
  unfold streamSeqs
  rw [h, List.filter_append, List.map_append]
  congr 1
  split <;> rename_i hx <;> simp [List.filter_cons, hx]

theorem isExecutedIn_mk (p a : String) (id0 : ℕ) (tid : String) (s : ℤ)
    (hsh pair action : String) (rsi : ℚ) (pr q : Option ℚ) (stat : String)
    (mb : Option (List (String × ℚ))) (mr mc : Option String) :
    isExecutedIn p a ⟨id0, tid, s, hsh, pair, action, rsi, pr, q, stat,
      mb, mr, mc⟩ = (pair == p && action == a && stat == "executed") := rfl

/-- C6: in every state reachable from the empty store by execute calls, the
executed records of each (pair, action) stream carry exactly the sequence
numbers 1..N in order, and the tracker equals N, the count of executed
records of the stream — so only calls reaching `executed` status advance the
tracker, and rejections and duplicates never consume a sequence number. -/
theorem claim_C6_sequence_monotonic (cfg : Config) (st : DBState)
    (h : Reachable cfg st) : SeqInvariant st := by
  induction h with
  | init =>
      intro p a
      exact ⟨rfl, rfl⟩
  | step o action req st hreach ih =>
      rw [execute_trade_eq]
      cases hfetch : fetch_trade_by_request_hash (seeded cfg req st)
          (reqHash cfg action req) with
      | some t =>
          exact seqInvariant_of_frame _ st (seeded_trades cfg req st)
            (seeded_seqTracker cfg req st) ih
      | none =>
          cases hv : validate_sequence (seeded cfg req st) (normPair cfg req)
              action req.sequence_number with
          | error e =>
              rw [core_seq_error _ _ _ _ _ _ _ _ _ _ hv]
              exact seqInvariant_of_frame _ st (seeded_trades cfg req st)
                (seeded_seqTracker cfg req st) ih
          | ok s =>
              cases hr : check_rsi_conditions cfg action o.rsi req.force with
              | some msg =>
                  rw [core_rsi_reject _ _ _ _ _ _ _ _ _ _ _ hv hr]
                  exact seqInvariant_of_frame _ st (seeded_trades cfg req st)
                    (seeded_seqTracker cfg req st) ih
              | none =>
                  cases hb : validate_balances (seeded cfg req st) action
                      (normPair cfg req) (normQty cfg req) o.price with
                  | some msg =>
                      rw [core_funds_reject _ _ _ _ _ _ _ _ _ _ _ hv hr hb]
                      exact seqInvariant_of_frame _ st
                        (seeded_trades cfg req st)
                        (seeded_seqTracker cfg req st) ih
                  | none =>
                      set tid := (if trade_exists_txid (seeded cfg req st)
                        o.txid1 then o.txid2 else o.txid1) with htid
                      cases hrec : record_trade
                          (apply_balance_updates (seeded cfg req st) action
                            (normPair cfg req) (normQty cfg req) o.price).2
                          tid
                          s (reqHash cfg action req) (normPair cfg req)
                          action o.rsi (some o.price)
                          (some (normQty cfg req)) "executed"
                          (some (apply_balance_updates (seeded cfg req st)
                            action (normPair cfg req) (normQty cfg req)
                            o.price).1)
                          (some req.request_id) req.client_ref with
                      | error u =>
                          cases u
                          rw [core_store_fail _ _ _ _ _ _ _ _ _ _ _ hv hr hb
                            htid.symm hrec]
                          refine seqInvariant_of_frame _ st ?_ ?_ ih
                          · rw [apply_trades, seeded_trades]
                          · rw [apply_seqTracker, seeded_seqTracker]
                      | ok idSt =>
                          rw [core_executed _ _ _ _ _ _ _ _ _ _ _ idSt hv hr
                            hb htid.symm hrec]
                          obtain ⟨hid1, htr, hbals, hseq, hnid⟩ :=
                            record_trade_ok_shape _ _ _ _ _ _ _ _ _ _ _ _ _ _
                              hrec
                          have htr' : idSt.2.trades = st.trades ++
                              [⟨(apply_balance_updates (seeded cfg req st)
                                  action (normPair cfg req) (normQty cfg req)
                                  o.price).2.nextId,
                                tid, s, reqHash cfg action req,
                                normPair cfg req,
                                action, o.rsi, some o.price,
                                some (normQty cfg req), "executed",
                                some (apply_balance_updates (seeded cfg req st)
                                  action (normPair cfg req) (normQty cfg req)
                                  o.price).1,
                                some req.request_id, req.client_ref⟩] := by
                            rw [htr, apply_trades, seeded_trades]
                          have hseq' : idSt.2.seqTracker =
                              upsertSeq st.seqTracker (normPair cfg req)
                                action s := by
                            rw [hseq, apply_seqTracker, seeded_seqTracker]
                          have hs : s = get_last_sequence st (normPair cfg req)
                              action + 1 := by
                            rw [validate_sequence_ok_val _ _ _ _ _ hv]
                            rw [get_last_congr _ st _ _
                              (seeded_seqTracker cfg req st)]
                          intro p a
                          have hstream := streamSeqs_append st idSt.2 _ p a
                            htr'
                          rw [isExecutedIn_mk] at hstream
                          by_cases hmatch : (p = normPair cfg req ∧ a = action)
                          · obtain ⟨hp1, ha1⟩ := hmatch
                            subst hp1
                            subst ha1
                            simp only [beq_self_eq_true, Bool.and_self,
                              Bool.and_true, Bool.true_and,
                              if_true] at hstream
                            have hN := (ih (normPair cfg req) a).1
                            have hNlen := (ih (normPair cfg req) a).2
                            constructor
                            · rw [hstream]
                              have hlen : (streamSeqs st (normPair cfg req)
                                    a ++ [s]).length =
                                  (streamSeqs st (normPair cfg req)
                                    a).length + 1 := by simp
                              rw [hlen, seqList, ← hN, hs, hNlen]
                            · rw [hstream]
                              have hlast : get_last_sequence idSt.2
                                  (normPair cfg req) a = s := by
                                unfold get_last_sequence
                                rw [hseq']
                                rw [lookupSeq_upsert_self]
                                rfl
                              rw [hlast, hs, hNlen]
                              simp
                          · have hcond : (normPair cfg req == p &&
                                (action == a) && ("executed" == "executed")) =
                                false := by
                              rcases not_and_or.mp hmatch with h1 | h1 <;>
                                simp [beq_eq_false_iff_ne.mpr (Ne.symm h1)]
                            rw [hcond] at hstream
                            simp only [Bool.false_eq_true, if_false,
                              List.append_nil] at hstream
                            constructor
                            · rw [hstream]; exact (ih p a).1
                            · rw [hstream]
                              have hlast : get_last_sequence idSt.2 p a =
                                  get_last_sequence st p a := by
                                unfold get_last_sequence
                                rw [hseq']
                                rw [lookupSeq_upsert_ne _ _ _ _ _ _ hmatch]
                              rw [hlast]
                              exact (ih p a).2

end RsiBot

namespace RsiBot

theorem fetch_of_exists (st : DBState) (h : String)
    (hex : trade_exists_hash st h = true) :
    (fetch_trade_by_request_hash st h).isSome := by
  unfold trade_exists_hash at hex
  unfold fetch_trade_by_request_hash
  rw [List.find?_isSome]
  obtain ⟨t, ht, hp⟩ := List.any_eq_true.mp hex
  exact ⟨t, ht, hp⟩

/-- C7 (amended): the store enforces a uniqueness constraint on
transaction_id only — inserting a row whose transaction id already exists
fails and leaves the store unchanged.  request_hash carries a plain
non-unique index, so the store itself accepts a second row per fingerprint
(see the counterexample); at-most-one-record-per-fingerprint holds only
through the engine: an execute call whose fingerprint already has a record
takes the replay path and inserts nothing. -/
theorem claim_C7_txid_unique_hash_engine_only (st : DBState) (tid : String)
    (s : ℤ) (hsh pair action : String) (rsi : ℚ) (pr q : Option ℚ)
    (stat : String) (mb : Option (List (String × ℚ))) (mr mc : Option String)
    (st2 : DBState) (cfg : Config) (o : Oracle) (action2 : String)
    (req : TradeRequest) :
    (trade_exists_txid st tid = true →
      record_trade st tid s hsh pair action rsi pr q stat mb mr mc =
        .error ())
    ∧ (trade_exists_hash (seeded cfg req st2) (reqHash cfg action2 req) =
        true →
      (execute_trade cfg o action2 req st2).2.trades = st2.trades) := by
  constructor
  · intro h
    exact record_trade_of_collision _ _ _ _ _ _ _ _ _ _ _ _ _ h
  · intro h
    rw [execute_trade_eq]
    cases hf : fetch_trade_by_request_hash (seeded cfg req st2)
        (reqHash cfg action2 req) with
    | none =>
        have := fetch_of_exists _ _ h
        rw [hf] at this
        cases this
    | some t =>
        exact seeded_trades cfg req st2

end RsiBot

namespace RsiBot

section ConcreteEvaluation

attribute [local semireducible] Rat.add Rat.mul Rat.inv Rat.sub

/-- C2 (counterexample): two calls with identical (pair, action, quantity,
request_id, client_ref) — the very same request value — where the first
returns, yet the second does not return the same status or transaction id:
the first is RSI-rejected (writes nothing), the second executes. -/
theorem claim_C2_counterexample :
    (execute_trade cfgEx oRej "BUY" reqEx initialState).1.toOption.map
      TradeResponse.status = some "rejected"
    ∧ (execute_trade cfgEx oExec "BUY" reqEx
        (execute_trade cfgEx oRej "BUY" reqEx initialState).2).1.toOption.map
      TradeResponse.status = some "executed"
    ∧ (execute_trade cfgEx oRej "BUY" reqEx initialState).1.toOption.map
      TradeResponse.transaction_id = some none
    ∧ (execute_trade cfgEx oExec "BUY" reqEx
        (execute_trade cfgEx oRej "BUY" reqEx initialState).2).1.toOption.map
      TradeResponse.transaction_id = some (some "TXA") := by
  decide

/-- C3: at a store in which both candidate transaction ids are already taken
(an oracle standing for a persistent id collision, or any store failure of
the insert), the call fails as a store failure after the balance mutation has
committed: the final state has no new trade record and an unchanged tracker,
yet the quote balance has been debited and the base balance credited — a
committed balance change without its corresponding executed trade record,
which the claim says can never be visible. -/
theorem claim_C3_partial_mutation_visible :
    (execute_trade cfgEx oExec "BUY" reqEx stC3).1 =
      .error .storeFailure
    ∧ (execute_trade cfgEx oExec "BUY" reqEx stC3).2.trades = stC3.trades
    ∧ (execute_trade cfgEx oExec "BUY" reqEx stC3).2.seqTracker =
      stC3.seqTracker
    ∧ get_balance stC3 "USDT" = 50000
    ∧ get_balance (execute_trade cfgEx oExec "BUY" reqEx stC3).2 "USDT" =
      49550
    ∧ get_balance stC3 "BTC" = 1
    ∧ get_balance (execute_trade cfgEx oExec "BUY" reqEx stC3).2 "BTC" =
      1 + 1 / 100 := by
  decide

/-- C7 (counterexample): bypassing the engine's pre-insert check, the store
happily inserts a second row with the request hash "hash-A" already carried
by `recA` — the insert succeeds and two rows then share one fingerprint, so
the store enforces no uniqueness constraint on request_hash. -/
theorem claim_C7_counterexample :
    (record_trade stC7 "TXB" 2 "hash-A" "BTCUSDT" "BUY" 15 (some 45000)
        (some (1 / 100)) "executed" none none none).toOption.map
      (fun r => (r.2.trades.filter
        (fun t => t.request_hash == "hash-A")).length) = some 2 := by
  decide

/-- C1 (witness): the invariant instantiated at the executed BUY of `oExec`
on the empty store. -/
theorem claim_C1_witness :
    (∀ p ∈ (execute_trade cfgEx oExec "BUY" reqEx initialState).2.balances,
      0 ≤ p.2)
    ∧ ((execute_trade cfgEx oExec "BUY" reqEx initialState).2.balances ≠
        (seeded cfgEx reqEx initialState).balances →
      ("BUY" = "BUY" → oExec.price * normQty cfgEx reqEx ≤
        get_balance (seeded cfgEx reqEx initialState)
          (parse_pair (normPair cfgEx reqEx)).2)
      ∧ ("BUY" ≠ "BUY" → normQty cfgEx reqEx ≤
        get_balance (seeded cfgEx reqEx initialState)
          (parse_pair (normPair cfgEx reqEx)).1)) :=
  claim_C1_no_negative_balances cfgEx oExec "BUY" reqEx initialState
    (by decide) (by decide) (by decide) (by decide) (by decide)

/-- C2 (witness): the amended idempotence instantiated at an executed BUY
followed by a replay with fresh oracle samples. -/
theorem claim_C2_witness :
    (execute_trade cfgEx oExec2 "BUY" reqEx stMidEx).2 = stMidEx
    ∧ (execute_trade cfgEx oExec2 "BUY" reqEx stMidEx).1.toOption.map
        TradeResponse.transaction_id = some r1Ex.transaction_id
    ∧ (execute_trade cfgEx oExec2 "BUY" reqEx stMidEx).1.toOption.map
        TradeResponse.trade_id = some r1Ex.trade_id
    ∧ (execute_trade cfgEx oExec2 "BUY" reqEx stMidEx).1.toOption.map
        TradeResponse.sequence_number = some r1Ex.sequence_number
    ∧ (execute_trade cfgEx oExec2 "BUY" reqEx stMidEx).1.toOption.map
        TradeResponse.status = some r1Ex.status :=
  claim_C2_idempotent_executed cfgEx oExec oExec2 "BUY" reqEx reqEx
    initialState stMidEx r1Ex rfl rfl rfl rfl (by decide) (by decide)

/-- C4 (witness): the rejection frame instantiated at the RSI-rejected BUY
of `oRej` on the empty store. -/
theorem claim_C4_witness :
    stSeedEx = seeded cfgEx reqEx initialState
    ∧ stSeedEx.trades = initialState.trades
    ∧ stSeedEx.seqTracker = initialState.seqTracker
    ∧ stSeedEx.nextId = initialState.nextId :=
  claim_C4_rejection_frame cfgEx oRej "BUY" reqEx initialState r4Ex stSeedEx
    (by decide) (by decide)

/-- C6 (witness): the stream invariant instantiated at the state reached by
one executed BUY from the empty store. -/
theorem claim_C6_witness :
    SeqInvariant (execute_trade cfgEx oExec "BUY" reqEx initialState).2 :=
  claim_C6_sequence_monotonic cfgEx _
    (Reachable.step oExec "BUY" reqEx initialState Reachable.init)

/-- C7 (witness): both amended guarantees instantiated — the store rejects
the duplicate transaction id "TXOLD" of `stC9`, and an execute call whose
fingerprint is already recorded in `stC9` inserts nothing. -/
theorem claim_C7_witness :
    record_trade stC9 "TXOLD" 9 "hash-X" "BTCUSDT" "BUY" 15 (some 45000)
      (some (1 / 100)) "executed" none none none = .error ()
    ∧ (execute_trade cfgEx oExec "BUY" reqEx stC9).2.trades =
      stC9.trades :=
  ⟨(claim_C7_txid_unique_hash_engine_only stC9 "TXOLD" 9 "hash-X" "BTCUSDT"
      "BUY" 15 (some 45000) (some (1 / 100)) "executed" none none none stC9
      cfgEx oExec "BUY" reqEx).1 (by decide),
    (claim_C7_txid_unique_hash_engine_only stC9 "TXOLD" 9 "hash-X" "BTCUSDT"
      "BUY" 15 (some 45000) (some (1 / 100)) "executed" none none none stC9
      cfgEx oExec "BUY" reqEx).2 (by decide)⟩

/-- C9 (witness): the replay-fallback behaviour instantiated at `stC9`,
whose stored record carries the fingerprint of `reqEx` and no balances
snapshot. -/
theorem claim_C9_witness :
    execute_trade cfgEx oExec "BUY" reqEx stC9 =
      (.ok (dupResponse reqEx (reqHash cfgEx "BUY" reqEx)
        (seeded cfgEx reqEx stC9).balances recDupNoSnap),
        seeded cfgEx reqEx stC9)
    ∧ (dupResponse reqEx (reqHash cfgEx "BUY" reqEx)
        (seeded cfgEx reqEx stC9).balances recDupNoSnap).balances =
      (seeded cfgEx reqEx stC9).balances
    ∧ (dupResponse reqEx (reqHash cfgEx "BUY" reqEx)
        (seeded cfgEx reqEx stC9).balances recDupNoSnap).request_id =
      reqEx.request_id :=
  claim_C9_replay_fallbacks cfgEx oExec "BUY" reqEx stC9 recDupNoSnap
    (by decide) (by decide)

end ConcreteEvaluation

end RsiBot
